import Mathlib

/-!
# ForumHive server — shallow embedding

A shallow embedding of the authorization / access-control core of the
ForumHive Express + MongoDB backend, together with proofs of its stated
properties.

The document store is modelled as lists of records; MongoDB's `findOne`
is `List.find?`, `countDocuments` is `List.countP`, `updateOne` (which
updates the first matching document) is `updateFirst`, `deleteOne` is
`List.eraseP`, and `insertOne` appends.  ObjectIds are modelled as `Nat`,
JS numbers that are incremented and decremented as `Int`.  Fields that a
document may lack (`role`, `memberShip`, `status`, …) are `Option`s, with
`none` for an absent field, matching JS `undefined`.

Each HTTP handler becomes a function from the request data and the store
to a response value paired with the updated store.  JWT verification is a
process boundary (the `jsonwebtoken` library): a cookie token is modelled
as either cryptographically invalid or valid with a decoded payload.
-/

namespace ForumHive

/-- A document of the `users` collection.  `role` is `some "admin"` for
administrators, `memberShip` is `some "member"` or `some "non-member"`
(or absent), `postLimit` is the advisory post-allowance counter. -/
structure User where
  email : String
  username : String
  role : Option String
  memberShip : Option String
  postLimit : Int
  isBlocked : Bool
  warning : Bool
  badges : List String
  lastSignIn : Option String
  lastSignInIp : Option String
  deriving Repr, DecidableEq

/-- A document of the `posts` collection (`_id` modelled as `id : Nat`). -/
structure Post where
  id : Nat
  authorEmail : String
  upVote : Int
  downVote : Int
  createdAt : Nat
  deriving Repr, DecidableEq

/-- A document of the `comments` collection. -/
structure Comment where
  id : Nat
  postId : Nat
  createdAt : Nat
  deriving Repr, DecidableEq

/-- A document of the `reports` collection.  `status` is `some "resolved"`
once an admin ignores the report; an absent status means the report is
open. -/
structure Report where
  id : Nat
  commentId : Nat
  status : Option String
  createdAt : Nat
  deriving Repr, DecidableEq

/-- The MongoDB database `forumHiveDB`: one list per collection. -/
structure DB where
  users : List User
  posts : List Post
  comments : List Comment
  reports : List Report
  deriving Repr, DecidableEq

/-- MongoDB `updateOne`: apply `f` to the first element satisfying `p`,
leave everything else unchanged. -/
def updateFirst (p : α → Bool) (f : α → α) : List α → List α
  | [] => []
  | a :: l => if p a then f a :: l else a :: updateFirst p f l

/-- Index of the first element satisfying `p`, if any (the document that
MongoDB `updateOne` touches). -/
def firstIdx (p : α → Bool) : List α → Option Nat
  | [] => none
  | a :: l => if p a then some 0 else (firstIdx p l).map (· + 1)

/-- The decoded payload of a verified JWT.  The `email` claim may be
absent from the payload (`req.decoded?.email` is then `undefined`). -/
structure Decoded where
  email : Option String
  deriving Repr, DecidableEq

/-- A JWT cookie value as seen through `jwt.verify`: either verification
fails (bad signature, malformed, expired) or it succeeds with a decoded
payload.  The cryptographic check itself is the library's concern. -/
inductive Token where
  | invalid : Token
  | valid : Decoded → Token
  deriving Repr, DecidableEq

/-- The request data the authentication gate looks at: the `jwtToken`
cookie, absent when the client sent no credential. -/
structure Request where
  jwtToken : Option Token
  deriving Repr, DecidableEq

/-- Failure modes of the two auth middlewares: HTTP 401 and HTTP 403. -/
inductive AuthErr where
  | unauthorized : AuthErr
  | forbidden : AuthErr
  deriving Repr, DecidableEq

/-- The `verifyJWT` middleware: 401 when the cookie is absent, 403 when
`jwt.verify` fails, otherwise attach the decoded payload. -/
def verifyJWT (req : Request) : Except AuthErr Decoded :=
  match req.jwtToken with
  | none => .error .unauthorized
  | some .invalid => .error .forbidden
  | some (.valid d) => .ok d

/-- The `verifyAdmin` middleware: 401 when the decoded payload carries no
email, 403 when no user record exists for it or the record's role is not
`"admin"`, otherwise pass. -/
def verifyAdmin (db : DB) (d : Decoded) : Except AuthErr Unit :=
  match d.email with
  | none => .error .unauthorized
  | some email =>
    match db.users.find? (fun u => u.email == email) with
    | none => .error .forbidden
    | some user => if user.role = some "admin" then .ok () else .error .forbidden

/-- Outcome of `POST /users`.  In the main server the username clash is
answered with status 200 and an error body, in the `index.js` variant
with status 409; both are the `usernameExists` outcome here. -/
inductive RegisterResult where
  | usernameExists : RegisterResult
  | emailExists : RegisterResult
  | created : RegisterResult
  deriving Repr, DecidableEq

/-- `POST /users` of the main server (`part_000`): the username-clash
rejection fires only when the email is NOT already present
(`if (!emailExists && usernameExists)`); an existing email takes the
sign-in path, updating `lastSignIn` and `lastSignInIp` of the first
matching record; otherwise the body is inserted with `lastSignInIp`
set from the request. -/
def saveUser (db : DB) (userData : User) (ip : String) (now : String) :
    RegisterResult × DB :=
  let emailExists := db.users.find? (fun u => u.email == userData.email)
  let usernameExists := db.users.find? (fun u => u.username == userData.username)
  if emailExists.isNone ∧ usernameExists.isSome then
    (.usernameExists, db)
  else if emailExists.isSome then
    (.emailExists,
      { db with
        users := updateFirst (fun u => u.email == userData.email)
          (fun u => { u with lastSignIn := some now, lastSignInIp := some ip })
          db.users })
  else
    (.created,
      { db with users := db.users ++ [{ userData with lastSignInIp := some ip }] })

/-- `POST /users` of the `src/index.js` variant: identical except that
the username clash is rejected unconditionally (`if (usernameExists)`),
before the email branch. -/
def saveUserIndex (db : DB) (userData : User) (ip : String) (now : String) :
    RegisterResult × DB :=
  let emailExists := db.users.find? (fun u => u.email == userData.email)
  let usernameExists := db.users.find? (fun u => u.username == userData.username)
  if usernameExists.isSome then
    (.usernameExists, db)
  else if emailExists.isSome then
    (.emailExists,
      { db with
        users := updateFirst (fun u => u.email == userData.email)
          (fun u => { u with lastSignIn := some now, lastSignInIp := some ip })
          db.users })
  else
    (.created,
      { db with users := db.users ++ [{ userData with lastSignInIp := some ip }] })

/-- Outcome of `POST /posts` (after the `verifyJWT` gate). -/
inductive CreatePostResult where
  | forbiddenMismatch : CreatePostResult
  | forbiddenUserNotFound : CreatePostResult
  | quotaExceeded : CreatePostResult
  | created : CreatePostResult
  deriving Repr, DecidableEq

/-- `POST /posts`: reject (403) when the authenticated email differs from
the body's `authorEmail`; count the author's existing posts; reject (403)
when no user record exists; reject with `Post limit exceeded` when the
membership tier is `member` and the count exceeds 10, or `non-member`
and the count exceeds 5; otherwise insert the post and decrement the
author's `postLimit` by 1. -/
def createPost (db : DB) (postData : Post) (decodedEmail : String) :
    CreatePostResult × DB :=
  if decodedEmail ≠ postData.authorEmail then (.forbiddenMismatch, db)
  else
    let postCount := db.posts.countP (fun p => p.authorEmail == decodedEmail)
    match db.users.find? (fun u => u.email == decodedEmail) with
    | none => (.forbiddenUserNotFound, db)
    | some member =>
      if member.memberShip = some "member" ∧ postCount > 10 then
        (.quotaExceeded, db)
      else if member.memberShip = some "non-member" ∧ postCount > 5 then
        (.quotaExceeded, db)
      else
        (.created,
          { db with
            posts := db.posts ++ [postData],
            users := updateFirst (fun u => u.email == decodedEmail)
              (fun u => { u with postLimit := u.postLimit - 1 }) db.users })

/-- Outcome of `DELETE /posts/:id` (after the `verifyJWT` gate). -/
inductive DeleteResult where
  | notFound : DeleteResult
  | forbidden : DeleteResult
  | deleted : DeleteResult
  deriving Repr, DecidableEq

/-- `DELETE /posts/:id`: fetch the post fresh from storage (the request
carries only the id); 404 when absent; 403 when its stored `authorEmail`
differs from the authenticated email; otherwise delete it and increment
the deleting user's `postLimit` by 1. -/
def deletePost (db : DB) (postId : Nat) (decodedEmail : String) :
    DeleteResult × DB :=
  match db.posts.find? (fun p => p.id == postId) with
  | none => (.notFound, db)
  | some post =>
    if post.authorEmail ≠ decodedEmail then (.forbidden, db)
    else
      (.deleted,
        { db with
          posts := db.posts.eraseP (fun p => p.id == postId),
          users := updateFirst (fun u => u.email == decodedEmail)
            (fun u => { u with postLimit := u.postLimit + 1 }) db.users })

/-- Whether `PATCH /post/vote/:postId` answered the request: for a `type`
other than `up` / `down` the handler falls off the end of both branches
and never calls `res.send`. -/
inductive VoteResponse where
  | sent : VoteResponse
  | noResponse : VoteResponse
  deriving Repr, DecidableEq

/-- `PATCH /post/vote/:postId`: on `type = "up"` increment `upVote` of
the first post matching the id by 1 and respond; on `type = "down"`
likewise for `downVote`; on anything else do nothing and send nothing. -/
def votePost (db : DB) (postId : Nat) (type : String) : VoteResponse × DB :=
  if type = "up" then
    (.sent,
      { db with
        posts := updateFirst (fun p => p.id == postId)
          (fun p => { p with upVote := p.upVote + 1 }) db.posts })
  else if type = "down" then
    (.sent,
      { db with
        posts := updateFirst (fun p => p.id == postId)
          (fun p => { p with downVote := p.downVote + 1 }) db.posts })
  else
    (.noResponse, db)

/-- Outcome of `POST /reports`. -/
inductive SubmitReportResult where
  | duplicate : SubmitReportResult
  | inserted : SubmitReportResult
  deriving Repr, DecidableEq

/-- `POST /reports`: look up any existing report with the submitted
`commentId`; if one exists answer with a duplicate notice and insert
nothing, otherwise insert the submitted report.  (The source's
`if (!reportsData)` guard can never fire: `reportsData` is a freshly
constructed object, always truthy in JS, so it has no counterpart
here.) -/
def submitReport (db : DB) (reportsData : Report) : SubmitReportResult × DB :=
  match db.reports.find? (fun r => r.commentId == reportsData.commentId) with
  | some _ => (.duplicate, db)
  | none => (.inserted, { db with reports := db.reports ++ [reportsData] })

/-- Insert a report into a list kept in descending `createdAt` order. -/
def insertDesc (r : Report) : List Report → List Report
  | [] => [r]
  | a :: l => if a.createdAt ≤ r.createdAt then r :: a :: l else a :: insertDesc r l

/-- Sort reports by `createdAt` descending (`.sort({createdAt: -1})`). -/
def sortByCreatedAtDesc : List Report → List Report
  | [] => []
  | a :: l => insertDesc a (sortByCreatedAtDesc l)

/-- Outcome of `GET /reports`. -/
inductive ReportsResult where
  | unauthorized : ReportsResult
  | forbidden : ReportsResult
  | ok : List Report → ReportsResult
  deriving Repr, DecidableEq

/-- `GET /reports`, gated by `verifyJWT` then `verifyAdmin`: list all
reports sorted by creation time descending. -/
def getReports (db : DB) (req : Request) : ReportsResult :=
  match verifyJWT req with
  | .error .unauthorized => .unauthorized
  | .error .forbidden => .forbidden
  | .ok d =>
    match verifyAdmin db d with
    | .error .unauthorized => .unauthorized
    | .error .forbidden => .forbidden
    | .ok _ => .ok (sortByCreatedAtDesc db.reports)

/-- Body of `PATCH /reports/action`. -/
structure ActionBody where
  action : String
  reportId : Nat
  userEmail : String
  commentId : Nat
  deriving Repr, DecidableEq

/-- Outcome of `PATCH /reports/action`: the handler always answers
`{ modifiedCount: 1 }` once past the admin gate. -/
inductive ActionResult where
  | unauthorized : ActionResult
  | forbidden : ActionResult
  | success : ActionResult
  deriving Repr, DecidableEq

/-- The action dispatch of `PATCH /reports/action`: `ignore` resolves the
report, `warn` flags the user, `delete-comment` deletes the comment and
the report, `block` blocks the user; any other tag touches nothing. -/
def applyAction (db : DB) (b : ActionBody) : DB :=
  if b.action = "ignore" then
    { db with
      reports := updateFirst (fun r => r.id == b.reportId)
        (fun r => { r with status := some "resolved" }) db.reports }
  else if b.action = "warn" then
    { db with
      users := updateFirst (fun u => u.email == b.userEmail)
        (fun u => { u with warning := true }) db.users }
  else if b.action = "delete-comment" then
    { db with
      comments := db.comments.eraseP (fun c => c.id == b.commentId),
      reports := db.reports.eraseP (fun r => r.id == b.reportId) }
  else if b.action = "block" then
    { db with
      users := updateFirst (fun u => u.email == b.userEmail)
        (fun u => { u with isBlocked := true }) db.users }
  else db

/-- `PATCH /reports/action`, gated by `verifyJWT` then `verifyAdmin`;
past the gate it dispatches on the action and reports success
unconditionally. -/
def reportsActionHandler (db : DB) (req : Request) (b : ActionBody) :
    ActionResult × DB :=
  match verifyJWT req with
  | .error .unauthorized => (.unauthorized, db)
  | .error .forbidden => (.forbidden, db)
  | .ok d =>
    match verifyAdmin db d with
    | .error .unauthorized => (.unauthorized, db)
    | .error .forbidden => (.forbidden, db)
    | .ok _ => (.success, applyAction db b)

/-! ## Helper lemmas about the store operations -/

theorem updateFirst_length (p : α → Bool) (f : α → α) (l : List α) :
    (updateFirst p f l).length = l.length := by
  induction l with
  | nil => rfl
  | cons a l ih =>
    simp only [updateFirst]
    split <;> simp [ih]

theorem updateFirst_get? (p : α → Bool) (f : α → α) (l : List α) (i : Nat) :
    (updateFirst p f l).get? i =
      if firstIdx p l = some i then (l.get? i).map f else l.get? i := by
  induction l generalizing i with
  | nil => simp [updateFirst, firstIdx]
  | cons a l ih =>
    cases hpa : p a with
    | true =>
      simp only [updateFirst, firstIdx, hpa, if_true]
      match i with
      | 0 => simp
      | j + 1 => simp
    | false =>
      simp only [updateFirst, firstIdx, hpa, Bool.false_eq_true, if_false]
      match i with
      | 0 => cases hfi : firstIdx p l <;> simp
      | j + 1 =>
        simp only [List.get?]
        rw [ih j]
        cases hfi : firstIdx p l with
        | none => simp
        | some k =>
          by_cases hk : k = j
          · subst hk
            simp
          · rw [if_neg (by simpa using hk), if_neg (by simpa using hk)]

theorem firstIdx_some (p : α → Bool) (l : List α) (i : Nat)
    (h : firstIdx p l = some i) : ∃ a, l.get? i = some a ∧ p a = true := by
  induction l generalizing i with
  | nil => cases h
  | cons a l ih =>
    simp only [firstIdx] at h
    by_cases ha : p a = true
    · rw [if_pos ha] at h
      cases h
      exact ⟨a, rfl, ha⟩
    · rw [if_neg ha] at h
      match i with
      | 0 => cases firstIdx p l <;> simp_all
      | j + 1 =>
        have hj : firstIdx p l = some j := by
          cases hfi : firstIdx p l <;> rw [hfi] at h <;> simp_all
        exact ih j hj

theorem updateFirst_get?_of_neg (p : α → Bool) (f : α → α) (l : List α)
    (i : Nat) (a : α) (hi : l.get? i = some a) (hp : p a = false) :
    (updateFirst p f l).get? i = some a := by
  rw [updateFirst_get? p f l i]
  have : firstIdx p l ≠ some i := by
    intro hc
    obtain ⟨b, hb, hpb⟩ := firstIdx_some p l i hc
    rw [hi] at hb
    cases hb
    rw [hp] at hpb
    cases hpb
  rw [if_neg this, hi]

theorem find?_updateFirst (p : α → Bool) (f : α → α) (l : List α) (a : α)
    (hf : l.find? p = some a) (hp : ∀ x, p (f x) = p x) :
    (updateFirst p f l).find? p = some (f a) := by
  induction l with
  | nil => cases hf
  | cons b l ih =>
    by_cases hb : p b = true
    · rw [List.find?_cons_of_pos _ hb] at hf
      cases hf
      simp only [updateFirst, if_pos hb]
      exact List.find?_cons_of_pos _ (by rw [hp]; exact hb)
    · rw [List.find?_cons_of_neg _ (by simpa using hb)] at hf
      simp only [updateFirst, if_neg hb]
      rw [List.find?_cons_of_neg _ (by simpa using hb)]
      exact ih hf

/-! ## Claim theorems -/

/-- C1: for a delete-post request by authenticated identity `email` on
post id `pid`: when no post with id `pid` exists the handler answers
`notFound`; when the stored post's `authorEmail` (fetched fresh from
storage — the handler receives only the id, no body) differs from
`email` it answers `forbidden` and the store is unchanged; only when the
stored `authorEmail` equals `email` is the post deleted (the post store
shrinks by one, by erasing the matching post). -/
theorem deletePost_authz (db : DB) (pid : Nat) (email : String) :
    (db.posts.find? (fun p => p.id == pid) = none →
      deletePost db pid email = (.notFound, db)) ∧
    (∀ post, db.posts.find? (fun p => p.id == pid) = some post →
      post.authorEmail ≠ email → deletePost db pid email = (.forbidden, db)) ∧
    (∀ post, db.posts.find? (fun p => p.id == pid) = some post →
      post.authorEmail = email →
      (deletePost db pid email).1 = .deleted ∧
      (deletePost db pid email).2.posts.length + 1 = db.posts.length ∧
      (deletePost db pid email).2.posts = db.posts.eraseP (fun p => p.id == pid)) := by
  refine ⟨?_, ?_, ?_⟩
  · intro h
    simp [deletePost, h]
  · intro post hp hne
    simp [deletePost, hp, hne]
  · intro post hp he
    have hmem := List.mem_of_find?_eq_some hp
    have hpa := List.find?_some hp
    have hpos : 0 < db.posts.length := List.length_pos_of_mem hmem
    refine ⟨by simp [deletePost, hp, he], ?_, by simp [deletePost, hp, he]⟩
    have : (deletePost db pid email).2.posts =
        db.posts.eraseP (fun p => p.id == pid) := by
      simp [deletePost, hp, he]
    rw [this, List.length_eraseP_of_mem hmem hpa]
    omega

/-- C1 witness: a one-post store; deletion by a stranger is forbidden and
changes nothing, deletion by the author succeeds. -/
theorem deletePost_authz_witness :
    deletePost ⟨[], [⟨1, "a@x", 0, 0, 0⟩], [], []⟩ 1 "b@x" =
      (DeleteResult.forbidden, ⟨[], [⟨1, "a@x", 0, 0, 0⟩], [], []⟩) ∧
    (deletePost ⟨[], [⟨1, "a@x", 0, 0, 0⟩], [], []⟩ 1 "a@x").1 =
      DeleteResult.deleted := by
  constructor
  · exact (deletePost_authz ⟨[], [⟨1, "a@x", 0, 0, 0⟩], [], []⟩ 1 "b@x").2.1
      ⟨1, "a@x", 0, 0, 0⟩ (by rfl) (by decide)
  · exact ((deletePost_authz ⟨[], [⟨1, "a@x", 0, 0, 0⟩], [], []⟩ 1 "a@x").2.2
      ⟨1, "a@x", 0, 0, 0⟩ (by rfl) rfl).1

/-- C2: an authenticated creation request whose author equals the acting
identity is rejected with `quotaExceeded` — with the store unchanged, so
nothing is inserted and `postLimit` is untouched — whenever the author's
record has tier `non-member` and their existing post count exceeds 5, or
tier `member` and the count exceeds 10.  (The witness instantiates the
two boundary cases: a non-member with 6 posts, a member with 11.) -/
theorem createPost_quota (db : DB) (postData : Post) (u : User)
    (hu : db.users.find? (fun x => x.email == postData.authorEmail) = some u)
    (hq : (u.memberShip = some "non-member" ∧
            db.posts.countP (fun p => p.authorEmail == postData.authorEmail) > 5) ∨
          (u.memberShip = some "member" ∧
            db.posts.countP (fun p => p.authorEmail == postData.authorEmail) > 10)) :
    createPost db postData postData.authorEmail = (.quotaExceeded, db) := by
  have hne : ¬(postData.authorEmail ≠ postData.authorEmail) := fun h => h rfl
  simp only [createPost, if_neg hne, hu]
  rcases hq with ⟨hm, hc⟩ | ⟨hm, hc⟩
  · rw [if_neg (fun hco => absurd (hm ▸ hco.1) (by decide)), if_pos ⟨hm, hc⟩]
  · rw [if_pos ⟨hm, hc⟩]

/-- C2 witness: a non-member with 6 existing posts is rejected on the 7th
attempt; a member with 11 existing posts is rejected on the 12th. -/
theorem createPost_quota_witness :
    createPost
      ⟨[⟨"a@x", "alice", none, some "non-member", 0, false, false, [], none, none⟩],
        [⟨1, "a@x", 0, 0, 0⟩, ⟨2, "a@x", 0, 0, 0⟩, ⟨3, "a@x", 0, 0, 0⟩,
          ⟨4, "a@x", 0, 0, 0⟩, ⟨5, "a@x", 0, 0, 0⟩, ⟨6, "a@x", 0, 0, 0⟩], [], []⟩
      ⟨7, "a@x", 0, 0, 0⟩ "a@x" =
      (CreatePostResult.quotaExceeded,
        ⟨[⟨"a@x", "alice", none, some "non-member", 0, false, false, [], none, none⟩],
          [⟨1, "a@x", 0, 0, 0⟩, ⟨2, "a@x", 0, 0, 0⟩, ⟨3, "a@x", 0, 0, 0⟩,
            ⟨4, "a@x", 0, 0, 0⟩, ⟨5, "a@x", 0, 0, 0⟩, ⟨6, "a@x", 0, 0, 0⟩], [], []⟩) ∧
    (createPost
      ⟨[⟨"m@x", "meg", none, some "member", 0, false, false, [], none, none⟩],
        [⟨1, "m@x", 0, 0, 0⟩, ⟨2, "m@x", 0, 0, 0⟩, ⟨3, "m@x", 0, 0, 0⟩,
          ⟨4, "m@x", 0, 0, 0⟩, ⟨5, "m@x", 0, 0, 0⟩, ⟨6, "m@x", 0, 0, 0⟩,
          ⟨7, "m@x", 0, 0, 0⟩, ⟨8, "m@x", 0, 0, 0⟩, ⟨9, "m@x", 0, 0, 0⟩,
          ⟨10, "m@x", 0, 0, 0⟩, ⟨11, "m@x", 0, 0, 0⟩], [], []⟩
      ⟨12, "m@x", 0, 0, 0⟩ "m@x").1 = CreatePostResult.quotaExceeded := by
  constructor
  · exact createPost_quota _ ⟨7, "a@x", 0, 0, 0⟩
      ⟨"a@x", "alice", none, some "non-member", 0, false, false, [], none, none⟩
      (by rfl) (Or.inl ⟨rfl, by decide⟩)
  · rw [createPost_quota _ ⟨12, "m@x", 0, 0, 0⟩
      ⟨"m@x", "meg", none, some "member", 0, false, false, [], none, none⟩
      (by rfl) (Or.inr ⟨rfl, by decide⟩)]

/-- C9: when the author's record has a `memberShip` that is neither
`member` nor `non-member` (including an absent field), neither ceiling
is checked: the handler inserts the post whatever the author's existing
post count.  (The witness inserts an 8th post for a user with no
`memberShip` field — past both ceilings.) -/
theorem createPost_noCeiling (db : DB) (postData : Post) (u : User)
    (hu : db.users.find? (fun x => x.email == postData.authorEmail) = some u)
    (h1 : u.memberShip ≠ some "member")
    (h2 : u.memberShip ≠ some "non-member") :
    (createPost db postData postData.authorEmail).1 = .created ∧
    (createPost db postData postData.authorEmail).2.posts =
      db.posts ++ [postData] := by
  have hne : ¬(postData.authorEmail ≠ postData.authorEmail) := fun h => h rfl
  simp only [createPost, if_neg hne, hu]
  rw [if_neg (fun hco => h1 hco.1), if_neg (fun hco => h2 hco.1)]
  exact ⟨rfl, rfl⟩

/-- C9 witness: a user with no `memberShip` field and 7 existing posts
(beyond both ceilings) still gets the 8th post inserted. -/
theorem createPost_noCeiling_witness :
    (createPost
      ⟨[⟨"n@x", "nat", none, none, 0, false, false, [], none, none⟩],
        [⟨1, "n@x", 0, 0, 0⟩, ⟨2, "n@x", 0, 0, 0⟩, ⟨3, "n@x", 0, 0, 0⟩,
          ⟨4, "n@x", 0, 0, 0⟩, ⟨5, "n@x", 0, 0, 0⟩, ⟨6, "n@x", 0, 0, 0⟩,
          ⟨7, "n@x", 0, 0, 0⟩], [], []⟩
      ⟨8, "n@x", 0, 0, 0⟩ "n@x").1 = CreatePostResult.created := by
  exact (createPost_noCeiling _ ⟨8, "n@x", 0, 0, 0⟩
    ⟨"n@x", "nat", none, none, 0, false, false, [], none, none⟩
    (by rfl) (by decide) (by decide)).1

/-- C8: a successful creation decrements the author's `postLimit` by
exactly 1, a successful ownership-checked deletion increments it by
exactly 1, and creating a post then deleting it restores the author's
user record — `postLimit` included — to its value before the creation
(the post id must be fresh so that the deletion finds the post just
created).  The post store is also restored. -/
theorem postLimit_roundTrip (db : DB) (postData : Post) (u : User)
    (hu : db.users.find? (fun x => x.email == postData.authorEmail) = some u)
    (hfresh : ∀ p ∈ db.posts, (p.id == postData.id) = false)
    (hc : (createPost db postData postData.authorEmail).1 = .created) :
    (createPost db postData postData.authorEmail).2.users.find?
        (fun x => x.email == postData.authorEmail) =
      some { u with postLimit := u.postLimit - 1 } ∧
    (deletePost (createPost db postData postData.authorEmail).2 postData.id
        postData.authorEmail).1 = .deleted ∧
    (deletePost (createPost db postData postData.authorEmail).2 postData.id
        postData.authorEmail).2.posts = db.posts ∧
    (deletePost (createPost db postData postData.authorEmail).2 postData.id
        postData.authorEmail).2.users.find?
        (fun x => x.email == postData.authorEmail) = some u := by
  have hne : ¬(postData.authorEmail ≠ postData.authorEmail) := fun h => h rfl
  by_cases c1 : u.memberShip = some "member" ∧
      db.posts.countP (fun p => p.authorEmail == postData.authorEmail) > 10
  · exfalso
    simp only [createPost, if_neg hne, hu, if_pos c1] at hc
    cases hc
  by_cases c2 : u.memberShip = some "non-member" ∧
      db.posts.countP (fun p => p.authorEmail == postData.authorEmail) > 5
  · exfalso
    simp only [createPost, if_neg hne, hu, if_neg c1, if_pos c2] at hc
    cases hc
  have hdb1 : createPost db postData postData.authorEmail =
      (.created,
        { db with
          posts := db.posts ++ [postData],
          users := updateFirst (fun x => x.email == postData.authorEmail)
            (fun x => { x with postLimit := x.postLimit - 1 }) db.users }) := by
    simp only [createPost, if_neg hne, hu, if_neg c1, if_neg c2]
  rw [hdb1]
  have hfind1 : (updateFirst (fun x => x.email == postData.authorEmail)
      (fun x => { x with postLimit := x.postLimit - 1 }) db.users).find?
      (fun x => x.email == postData.authorEmail) =
      some { u with postLimit := u.postLimit - 1 } :=
    find?_updateFirst _ _ _ u hu (fun x => rfl)
  have hnone : ∀ b ∈ db.posts, ¬((fun p => p.id == postData.id) b = true) := by
    intro b hb hpb
    exact absurd hpb (by simp [hfresh b hb])
  have hself : (fun p => p.id == postData.id) postData = true :=
    beq_self_eq_true postData.id
  have hfp : (db.posts ++ [postData]).find? (fun p => p.id == postData.id) =
      some postData := by
    rw [List.find?_append, List.find?_eq_none.mpr hnone, Option.none_or]
    exact List.find?_cons_of_pos _ hself
  have herase : (db.posts ++ [postData]).eraseP (fun p => p.id == postData.id) =
      db.posts := by
    rw [List.eraseP_append_right _ hnone]
    simp [List.eraseP_cons, hself]
  refine ⟨hfind1, ?_, ?_, ?_⟩
  · simp only [deletePost, hfp, if_neg hne]
  · simp only [deletePost, hfp, if_neg hne]
    exact herase
  · simp only [deletePost, hfp, if_neg hne]
    have hfind2 := find?_updateFirst (fun x : User => x.email == postData.authorEmail)
      (fun x : User => { x with postLimit := x.postLimit + 1 }) _ _ hfind1 (fun x => rfl)
    have hrestore : ((fun x : User => { x with postLimit := x.postLimit + 1 })
        { u with postLimit := u.postLimit - 1 }) = u := by
      show ({ u with postLimit := u.postLimit - 1 + 1 } : User) = u
      rw [show u.postLimit - 1 + 1 = u.postLimit by omega]
    rw [hfind2, hrestore]

/-- C8 witness: one user with `postLimit = 3`, no posts; after creating
post 1 the limit is 2, after deleting it the record is back to the
original. -/
theorem postLimit_roundTrip_witness :
    (createPost ⟨[⟨"a@x", "alice", none, none, 3, false, false, [], none, none⟩],
        [], [], []⟩ ⟨1, "a@x", 0, 0, 0⟩ "a@x").2.users.find?
      (fun x => x.email == "a@x") =
      some ⟨"a@x", "alice", none, none, 2, false, false, [], none, none⟩ ∧
    (deletePost (createPost
        ⟨[⟨"a@x", "alice", none, none, 3, false, false, [], none, none⟩],
          [], [], []⟩ ⟨1, "a@x", 0, 0, 0⟩ "a@x").2 1 "a@x").2.users.find?
      (fun x => x.email == "a@x") =
      some ⟨"a@x", "alice", none, none, 3, false, false, [], none, none⟩ := by
  have h := postLimit_roundTrip
    ⟨[⟨"a@x", "alice", none, none, 3, false, false, [], none, none⟩], [], [], []⟩
    ⟨1, "a@x", 0, 0, 0⟩
    ⟨"a@x", "alice", none, none, 3, false, false, [], none, none⟩
    (by rfl) (by intro p hp; cases hp) (by rfl)
  exact ⟨h.1, h.2.2.2⟩

/-- C3: the admin-only report listing answers `unauthorized` when the
request carries no session cookie; `forbidden` when it carries a valid
credential whose identity has no user record or whose record's role is
not `"admin"`; and only a valid credential of a user with role `"admin"`
gets the report listing. -/
theorem getReports_adminGate (db : DB) (req : Request) :
    (req.jwtToken = none → getReports db req = .unauthorized) ∧
    (∀ d e, req.jwtToken = some (Token.valid d) → d.email = some e →
      (db.users.find? (fun x => x.email == e) = none ∨
        (∃ u, db.users.find? (fun x => x.email == e) = some u ∧
          u.role ≠ some "admin")) →
      getReports db req = .forbidden) ∧
    (∀ d e u, req.jwtToken = some (Token.valid d) → d.email = some e →
      db.users.find? (fun x => x.email == e) = some u → u.role = some "admin" →
      getReports db req = .ok (sortByCreatedAtDesc db.reports)) := by
  refine ⟨?_, ?_, ?_⟩
  · intro h
    simp [getReports, verifyJWT, h]
  · intro d e ht he hcase
    rcases hcase with hn | ⟨u, hsu, hr⟩
    · simp [getReports, verifyJWT, verifyAdmin, ht, he, hn]
    · simp [getReports, verifyJWT, verifyAdmin, ht, he, hsu, hr]
  · intro d e u ht he hu hr
    simp [getReports, verifyJWT, verifyAdmin, ht, he, hu, hr]

/-- C3 witness: with a store holding an admin and a plain user, a
cookie-less request is unauthorized, a valid non-admin credential is
forbidden, and a valid admin credential gets the listing. -/
theorem getReports_adminGate_witness :
    getReports ⟨[⟨"adm@x", "ada", some "admin", none, 0, false, false, [], none, none⟩,
        ⟨"u@x", "uma", none, none, 0, false, false, [], none, none⟩], [], [], []⟩
      ⟨none⟩ = ReportsResult.unauthorized ∧
    getReports ⟨[⟨"adm@x", "ada", some "admin", none, 0, false, false, [], none, none⟩,
        ⟨"u@x", "uma", none, none, 0, false, false, [], none, none⟩], [], [], []⟩
      ⟨some (Token.valid ⟨some "u@x"⟩)⟩ = ReportsResult.forbidden ∧
    getReports ⟨[⟨"adm@x", "ada", some "admin", none, 0, false, false, [], none, none⟩,
        ⟨"u@x", "uma", none, none, 0, false, false, [], none, none⟩], [], [], []⟩
      ⟨some (Token.valid ⟨some "adm@x"⟩)⟩ = ReportsResult.ok [] := by
  refine ⟨?_, ?_, ?_⟩
  · exact (getReports_adminGate _ ⟨none⟩).1 rfl
  · exact (getReports_adminGate _ ⟨some (Token.valid ⟨some "u@x"⟩)⟩).2.1
      ⟨some "u@x"⟩ "u@x" rfl rfl
      (Or.inr ⟨⟨"u@x", "uma", none, none, 0, false, false, [], none, none⟩,
        by rfl, by decide⟩)
  · exact (getReports_adminGate _ ⟨some (Token.valid ⟨some "adm@x"⟩)⟩).2.2
      ⟨some "adm@x"⟩ "adm@x"
      ⟨"adm@x", "ada", some "admin", none, 0, false, false, [], none, none⟩
      rfl rfl (by rfl) rfl

/-- C6: an admin-authorized `PATCH /reports/action` whose action tag is
none of `ignore` / `warn` / `delete-comment` / `block` modifies no
report, user, or comment record (the store comes back unchanged) and the
handler still responds with success (`modifiedCount: 1`). -/
theorem reportsAction_unknown_noop (db : DB) (req : Request) (b : ActionBody)
    (d : Decoded) (e : String) (u : User)
    (ht : req.jwtToken = some (Token.valid d)) (he : d.email = some e)
    (hu : db.users.find? (fun x => x.email == e) = some u)
    (hr : u.role = some "admin")
    (h1 : b.action ≠ "ignore") (h2 : b.action ≠ "warn")
    (h3 : b.action ≠ "delete-comment") (h4 : b.action ≠ "block") :
    reportsActionHandler db req b = (.success, db) := by
  simp [reportsActionHandler, verifyJWT, verifyAdmin, applyAction,
    ht, he, hu, hr, h1, h2, h3, h4]

/-- C6 witness: an admin issues action `"celebrate"` on a store holding a
report, a comment and two users; nothing changes and the handler
succeeds. -/
theorem reportsAction_unknown_noop_witness :
    reportsActionHandler
      ⟨[⟨"adm@x", "ada", some "admin", none, 0, false, false, [], none, none⟩,
        ⟨"u@x", "uma", none, none, 0, false, false, [], none, none⟩],
        [], [⟨9, 4, 0⟩], [⟨2, 9, none, 0⟩]⟩
      ⟨some (Token.valid ⟨some "adm@x"⟩)⟩ ⟨"celebrate", 2, "u@x", 9⟩ =
      (ActionResult.success,
        ⟨[⟨"adm@x", "ada", some "admin", none, 0, false, false, [], none, none⟩,
          ⟨"u@x", "uma", none, none, 0, false, false, [], none, none⟩],
          [], [⟨9, 4, 0⟩], [⟨2, 9, none, 0⟩]⟩) := by
  exact reportsAction_unknown_noop _ _ ⟨"celebrate", 2, "u@x", 9⟩
    ⟨some "adm@x"⟩ "adm@x"
    ⟨"adm@x", "ada", some "admin", none, 0, false, false, [], none, none⟩
    rfl rfl (by rfl) rfl (by decide) (by decide) (by decide) (by decide)

/-- C10: a vote with a `type` that is neither `up` nor `down` leaves the
store untouched and sends no response at all; `type = "up"` responds and
rewrites exactly the first post matching the id, adding 1 to its
`upVote` and changing nothing else (in particular every post's
`downVote` is unchanged); `type = "down"` is symmetric. -/
theorem votePost_spec (db : DB) (pid : Nat) (type : String) :
    (type ≠ "up" → type ≠ "down" → votePost db pid type = (.noResponse, db)) ∧
    ((votePost db pid "up").1 = .sent ∧
      ∀ i, ((votePost db pid "up").2.posts.get? i =
          if firstIdx (fun p => p.id == pid) db.posts = some i then
            (db.posts.get? i).map (fun q => { q with upVote := q.upVote + 1 })
          else db.posts.get? i) ∧
        ((votePost db pid "up").2.posts.get? i).map Post.downVote =
          (db.posts.get? i).map Post.downVote) ∧
    ((votePost db pid "down").1 = .sent ∧
      ∀ i, ((votePost db pid "down").2.posts.get? i =
          if firstIdx (fun p => p.id == pid) db.posts = some i then
            (db.posts.get? i).map (fun q => { q with downVote := q.downVote + 1 })
          else db.posts.get? i) ∧
        ((votePost db pid "down").2.posts.get? i).map Post.upVote =
          (db.posts.get? i).map Post.upVote) := by
  refine ⟨?_, ⟨rfl, ?_⟩, ⟨rfl, ?_⟩⟩
  · intro h1 h2
    simp [votePost, h1, h2]
  · intro i
    have hg : (votePost db pid "up").2.posts.get? i =
        if firstIdx (fun p => p.id == pid) db.posts = some i then
          (db.posts.get? i).map (fun q => { q with upVote := q.upVote + 1 })
        else db.posts.get? i := by
      show (updateFirst (fun p => p.id == pid)
        (fun p => { p with upVote := p.upVote + 1 }) db.posts).get? i = _
      exact updateFirst_get? _ _ _ i
    refine ⟨hg, ?_⟩
    rw [hg]
    by_cases hfi : firstIdx (fun p => p.id == pid) db.posts = some i
    · rw [if_pos hfi]
      cases db.posts.get? i <;> rfl
    · rw [if_neg hfi]
  · intro i
    have hg : (votePost db pid "down").2.posts.get? i =
        if firstIdx (fun p => p.id == pid) db.posts = some i then
          (db.posts.get? i).map (fun q => { q with downVote := q.downVote + 1 })
        else db.posts.get? i := by
      show (updateFirst (fun p => p.id == pid)
        (fun p => { p with downVote := p.downVote + 1 }) db.posts).get? i = _
      exact updateFirst_get? _ _ _ i
    refine ⟨hg, ?_⟩
    rw [hg]
    by_cases hfi : firstIdx (fun p => p.id == pid) db.posts = some i
    · rw [if_pos hfi]
      cases db.posts.get? i <;> rfl
    · rw [if_neg hfi]

/-- C10 witness: on a two-post store, a `"boost"` vote changes nothing
and sends no response, and an `"up"` vote on post 2 leaves post 1 alone
and bumps only post 2's `upVote`. -/
theorem votePost_spec_witness :
    votePost ⟨[], [⟨1, "a@x", 3, 4, 0⟩, ⟨2, "b@x", 5, 6, 0⟩], [], []⟩ 2 "boost" =
      (VoteResponse.noResponse, ⟨[], [⟨1, "a@x", 3, 4, 0⟩, ⟨2, "b@x", 5, 6, 0⟩], [], []⟩) ∧
    (votePost ⟨[], [⟨1, "a@x", 3, 4, 0⟩, ⟨2, "b@x", 5, 6, 0⟩], [], []⟩ 2 "up").2.posts.get? 0 =
      some ⟨1, "a@x", 3, 4, 0⟩ ∧
    (votePost ⟨[], [⟨1, "a@x", 3, 4, 0⟩, ⟨2, "b@x", 5, 6, 0⟩], [], []⟩ 2 "up").2.posts.get? 1 =
      some ⟨2, "b@x", 6, 6, 0⟩ := by
  refine ⟨?_, ?_, ?_⟩
  · exact (votePost_spec ⟨[], [⟨1, "a@x", 3, 4, 0⟩, ⟨2, "b@x", 5, 6, 0⟩], [], []⟩
      2 "boost").1 (by decide) (by decide)
  · rw [((votePost_spec ⟨[], [⟨1, "a@x", 3, 4, 0⟩, ⟨2, "b@x", 5, 6, 0⟩], [], []⟩
      2 "boost").2.1.2 0).1]
    rfl
  · rw [((votePost_spec ⟨[], [⟨1, "a@x", 3, 4, 0⟩, ⟨2, "b@x", 5, 6, 0⟩], [], []⟩
      2 "boost").2.1.2 1).1]
    rfl

/-- C5: submitting a report for comment id `r.commentId`: when some
report referencing that comment already exists in the store, the
handler answers with the duplicate notice and the store is unchanged (no
record inserted); when none exists, the submitted report — referencing
that comment — is appended to the report store. -/
theorem submitReport_dedup (db : DB) (r : Report) :
    (∀ r0, db.reports.find? (fun x => x.commentId == r.commentId) = some r0 →
      submitReport db r = (.duplicate, db)) ∧
    (db.reports.find? (fun x => x.commentId == r.commentId) = none →
      submitReport db r = (.inserted, { db with reports := db.reports ++ [r] }) ∧
      (submitReport db r).2.reports.length = db.reports.length + 1) := by
  constructor
  · intro r0 h
    simp [submitReport, h]
  · intro h
    refine ⟨by simp [submitReport, h], ?_⟩
    simp [submitReport, h]

/-- C5 witness: a second report on comment 5 is rejected as a duplicate
and inserts nothing; a first report on comment 6 is inserted. -/
theorem submitReport_dedup_witness :
    submitReport ⟨[], [], [], [⟨1, 5, none, 0⟩]⟩ ⟨2, 5, none, 7⟩ =
      (SubmitReportResult.duplicate, ⟨[], [], [], [⟨1, 5, none, 0⟩]⟩) ∧
    submitReport ⟨[], [], [], [⟨1, 5, none, 0⟩]⟩ ⟨2, 6, none, 7⟩ =
      (SubmitReportResult.inserted,
        ⟨[], [], [], [⟨1, 5, none, 0⟩, ⟨2, 6, none, 7⟩]⟩) := by
  constructor
  · exact (submitReport_dedup ⟨[], [], [], [⟨1, 5, none, 0⟩]⟩ ⟨2, 5, none, 7⟩).1
      ⟨1, 5, none, 0⟩ (by rfl)
  · exact ((submitReport_dedup ⟨[], [], [], [⟨1, 5, none, 0⟩]⟩ ⟨2, 6, none, 7⟩).2
      (by rfl)).1

/-- C7: a registration whose email already matches a stored user record
takes the sign-in path: the matching record gets `lastSignIn := now` and
`lastSignInIp := ip` and keeps every other field (the record update
touches only those two fields), every record with a different email is
untouched, the user store keeps its length (no record inserted), and the
other collections are untouched. -/
theorem saveUser_emailExists_frame (db : DB) (userData : User) (ip now : String)
    (u : User)
    (hu : db.users.find? (fun x => x.email == userData.email) = some u) :
    (saveUser db userData ip now).1 = .emailExists ∧
    (saveUser db userData ip now).2.users.length = db.users.length ∧
    (saveUser db userData ip now).2.users.find? (fun x => x.email == userData.email) =
      some { u with lastSignIn := some now, lastSignInIp := some ip } ∧
    (∀ i a, db.users.get? i = some a → a.email ≠ userData.email →
      (saveUser db userData ip now).2.users.get? i = some a) ∧
    (saveUser db userData ip now).2.posts = db.posts := by
  have hres : saveUser db userData ip now =
      (.emailExists,
        { db with
          users := updateFirst (fun x => x.email == userData.email)
            (fun x => { x with lastSignIn := some now, lastSignInIp := some ip })
            db.users }) := by
    simp [saveUser, hu]
  rw [hres]
  refine ⟨rfl, updateFirst_length _ _ _, ?_, ?_, rfl⟩
  · exact find?_updateFirst _ _ _ u hu (fun x => rfl)
  · intro i a hi hne
    exact updateFirst_get?_of_neg _ _ _ i a hi (by simp [hne])

/-- C7 witness: re-registering the stored email `a@x` rewrites only its
`lastSignIn`/`lastSignInIp` and leaves the other user's record and the
store's size alone. -/
theorem saveUser_emailExists_frame_witness :
    (saveUser ⟨[⟨"b@x", "bob", none, none, 1, false, false, [], none, none⟩,
        ⟨"a@x", "alice", some "admin", some "member", 7, true, true, ["Gold"],
          some "t0", some "ip0"⟩], [], [], []⟩
      ⟨"a@x", "alice", none, none, 0, false, false, [], none, none⟩
      "ip1" "t1").1 = RegisterResult.emailExists ∧
    (saveUser ⟨[⟨"b@x", "bob", none, none, 1, false, false, [], none, none⟩,
        ⟨"a@x", "alice", some "admin", some "member", 7, true, true, ["Gold"],
          some "t0", some "ip0"⟩], [], [], []⟩
      ⟨"a@x", "alice", none, none, 0, false, false, [], none, none⟩
      "ip1" "t1").2.users.find? (fun x => x.email == "a@x") =
      some ⟨"a@x", "alice", some "admin", some "member", 7, true, true, ["Gold"],
        some "t1", some "ip1"⟩ ∧
    (saveUser ⟨[⟨"b@x", "bob", none, none, 1, false, false, [], none, none⟩,
        ⟨"a@x", "alice", some "admin", some "member", 7, true, true, ["Gold"],
          some "t0", some "ip0"⟩], [], [], []⟩
      ⟨"a@x", "alice", none, none, 0, false, false, [], none, none⟩
      "ip1" "t1").2.users.get? 0 =
      some ⟨"b@x", "bob", none, none, 1, false, false, [], none, none⟩ := by
  have h := saveUser_emailExists_frame
    ⟨[⟨"b@x", "bob", none, none, 1, false, false, [], none, none⟩,
      ⟨"a@x", "alice", some "admin", some "member", 7, true, true, ["Gold"],
        some "t0", some "ip0"⟩], [], [], []⟩
    ⟨"a@x", "alice", none, none, 0, false, false, [], none, none⟩
    "ip1" "t1"
    ⟨"a@x", "alice", some "admin", some "member", 7, true, true, ["Gold"],
      some "t0", some "ip0"⟩ (by rfl)
  exact ⟨h.1, h.2.2.1,
    h.2.2.2.1 0 ⟨"b@x", "bob", none, none, 1, false, false, [], none, none⟩
      rfl (by decide)⟩

/-- C4 counterexample: with stored users `alice` (email `a@x`) and `bob`
(email `b@x`, username `bob`), a registration carrying alice's email and
bob's username has a taken username, yet the main server's handler does
not return the username-duplicate error — it takes the email-exists path
instead. -/
theorem saveUser_usernameTaken_cex :
    ((([⟨"a@x", "alice", none, none, 0, false, false, [], none, none⟩,
        ⟨"b@x", "bob", none, none, 0, false, false, [], none, none⟩] :
        List User).find? (fun x => x.username == "bob")).isSome = true) ∧
    (saveUser ⟨[⟨"a@x", "alice", none, none, 0, false, false, [], none, none⟩,
        ⟨"b@x", "bob", none, none, 0, false, false, [], none, none⟩], [], [], []⟩
      ⟨"a@x", "bob", none, none, 0, false, false, [], none, none⟩ "ip" "t").1 =
      RegisterResult.emailExists ∧
    (saveUser ⟨[⟨"a@x", "alice", none, none, 0, false, false, [], none, none⟩,
        ⟨"b@x", "bob", none, none, 0, false, false, [], none, none⟩], [], [], []⟩
      ⟨"a@x", "bob", none, none, 0, false, false, [], none, none⟩ "ip" "t").1 ≠
      RegisterResult.usernameExists := by
  decide

/-- C4 (amended): a registration whose username is already taken never
inserts a new user record; the main server (`part_000`) returns the
username-duplicate error exactly when the submitted email is NOT already
present (an already-present email takes the email-exists path instead),
while the `index.js` variant rejects with the username-duplicate error
unconditionally, leaving the store unchanged. -/
theorem saveUser_usernameTaken (db : DB) (userData : User) (ip now : String)
    (hname : (db.users.find? (fun x => x.username == userData.username)).isSome
      = true) :
    ((saveUser db userData ip now).2.users.length = db.users.length) ∧
    ((db.users.find? (fun x => x.email == userData.email)).isSome = false →
      saveUser db userData ip now = (.usernameExists, db)) ∧
    (saveUserIndex db userData ip now = (.usernameExists, db)) := by
  refine ⟨?_, ?_, ?_⟩
  · cases hmail : db.users.find? (fun x => x.email == userData.email) with
    | none => simp [saveUser, hmail, hname]
    | some u => simp [saveUser, hmail, hname, updateFirst_length]
  · intro hmail
    have hm2 : db.users.find? (fun x => x.email == userData.email) = none := by
      cases h : db.users.find? (fun x => x.email == userData.email) with
      | none => rfl
      | some u => rw [h] at hmail; cases hmail
    simp [saveUser, hm2, hname]
  · simp [saveUserIndex, hname]

/-- C4 witness (amended claim): registering a fresh email with bob's
taken username is rejected with the username-duplicate error by both
handler versions, and nothing is inserted. -/
theorem saveUser_usernameTaken_witness :
    saveUser ⟨[⟨"b@x", "bob", none, none, 0, false, false, [], none, none⟩],
        [], [], []⟩
      ⟨"c@x", "bob", none, none, 0, false, false, [], none, none⟩ "ip" "t" =
      (RegisterResult.usernameExists,
        ⟨[⟨"b@x", "bob", none, none, 0, false, false, [], none, none⟩],
          [], [], []⟩) ∧
    saveUserIndex ⟨[⟨"b@x", "bob", none, none, 0, false, false, [], none, none⟩],
        [], [], []⟩
      ⟨"c@x", "bob", none, none, 0, false, false, [], none, none⟩ "ip" "t" =
      (RegisterResult.usernameExists,
        ⟨[⟨"b@x", "bob", none, none, 0, false, false, [], none, none⟩],
          [], [], []⟩) := by
  have h := saveUser_usernameTaken
    ⟨[⟨"b@x", "bob", none, none, 0, false, false, [], none, none⟩], [], [], []⟩
    ⟨"c@x", "bob", none, none, 0, false, false, [], none, none⟩ "ip" "t"
    (by decide)
  exact ⟨h.2.1 (by decide), h.2.2⟩

end ForumHive
